import Mathlib

/-!
Verification of the quote-generator scripts in this repository
(`dom-manipulation/script.js`, which contains two script iterations, and the
earlier unnamed script). The model below is a shallow embedding of the data
layer: the quote list, the sync merge (`syncQuotes`), local-storage
persistence (`saveQuotes`), the simulated server (`fetchQuotesFromServer`,
`pushQuotesToServer`), JSON import/export, and the add-quote form handlers.
DOM rendering, timers, session storage and the category filter are purely
presentational and are outside the model; storage/network failure branches
(the `catch` arms) are likewise not modelled — every theorem below is about
the success path, where `localStorage` and the simulated endpoint operate
normally.
-/

/-- A quote record: the single entity of the data model, with two string
fields `text` and `category` (script.js:2-8 and the `{ text, category }`
literals throughout). -/
structure Quote where
  text : String
  category : String
  deriving DecidableEq, Repr

/-- The `(text, category)` pair test used by the merge:
`localQuote.text === serverQuote.text && localQuote.category === serverQuote.category`
(script.js:327) and the identical predicate in the import loop
(script.js:548-550). JS `===` on strings is string equality. -/
def quoteMatches (a b : Quote) : Bool :=
  a.text == b.text && a.category == b.category

/-- `quotes.some(localQuote => quoteMatches ...)` — the `existsLocally`
check of `syncQuotes` (script.js:326-328), also the `exists` check of
`importFromJsonFile` (script.js:548-550). Note that in both loops the
check runs against the *current* list, which grows as records are pushed. -/
def existsLocally (quotes : List Quote) (q : Quote) : Bool :=
  quotes.any fun localQuote => quoteMatches localQuote q

/-- One iteration of the `remoteQuotes.forEach` body of `syncQuotes`
(script.js:324-335): the accumulator carries the mutable `quotes` array and
the `changesDetected` flag. -/
def mergeStep (acc : List Quote × Bool) (serverQuote : Quote) : List Quote × Bool :=
  if existsLocally acc.1 serverQuote then acc else (acc.1 ++ [serverQuote], true)

/-- Step 1 of `syncQuotes` (script.js:321-335): merge the server's unique
quotes into the local list, returning the updated list together with the
`changesDetected` flag (initially `false`). -/
def mergeServerQuotesD (quotes remoteQuotes : List Quote) : List Quote × Bool :=
  remoteQuotes.foldl mergeStep (quotes, false)

/-- The list component of the merge step of `syncQuotes`. -/
def mergeServerQuotes (quotes remoteQuotes : List Quote) : List Quote :=
  (mergeServerQuotesD quotes remoteQuotes).1

/-- The records the merge appends, written exactly as the specification
phrases it: "for each remote record, if no local record has an identical
`(text, category)` pair, append it" — processing remote records in order,
against the local list as it stands when the record is processed. -/
def newFromServer (locals : List Quote) : List Quote → List Quote
  | [] => []
  | q :: rs =>
    if existsLocally locals q then newFromServer locals rs
    else q :: newFromServer (locals ++ [q]) rs

lemma foldl_mergeStep_fst (r : List Quote) :
    ∀ (l : List Quote) (b : Bool),
      (List.foldl mergeStep (l, b) r).1 = l ++ newFromServer l r := by
  induction r with
  | nil => intro l b; simp [newFromServer]
  | cons q rs ih =>
    intro l b
    by_cases h : existsLocally l q
    · simp [List.foldl, mergeStep, h, newFromServer, ih]
    · simp [List.foldl, mergeStep, h, newFromServer, ih]

lemma mergeServerQuotes_eq_append (l r : List Quote) :
    mergeServerQuotes l r = l ++ newFromServer l r :=
  foldl_mergeStep_fst r l false

/-- Once `changesDetected` is set it stays set. -/
lemma foldl_mergeStep_snd_true (r : List Quote) :
    ∀ (l : List Quote), (List.foldl mergeStep (l, true) r).2 = true := by
  induction r with
  | nil => intro l; rfl
  | cons q rs ih =>
    intro l
    by_cases h : existsLocally l q
    · simpa [List.foldl, mergeStep, h] using ih l
    · simpa [List.foldl, mergeStep, h] using ih (l ++ [q])

/-- If the merge reports no changes, the list is unchanged. -/
lemma foldl_mergeStep_snd_false (r : List Quote) :
    ∀ (l : List Quote),
      (List.foldl mergeStep (l, false) r).2 = false →
        (List.foldl mergeStep (l, false) r).1 = l := by
  induction r with
  | nil => intro l _; rfl
  | cons q rs ih =>
    intro l h
    by_cases hq : existsLocally l q
    · rw [List.foldl, mergeStep] at h ⊢
      simp only [hq, if_pos] at h ⊢
      exact ih l h
    · exfalso
      rw [List.foldl, mergeStep] at h
      simp only [hq, if_neg, Bool.false_eq_true] at h
      simp [foldl_mergeStep_snd_true] at h

/-- "No two records with an identical `(text, category)` pair" — the
data-integrity invariant named by the specification. -/
def noDupPairs (l : List Quote) : Prop :=
  l.Pairwise fun a b => ¬ (a.text = b.text ∧ a.category = b.category)

lemma existsLocally_eq_false_iff (l : List Quote) (q : Quote) :
    existsLocally l q = false ↔
      ∀ a ∈ l, ¬ (a.text = q.text ∧ a.category = q.category) := by
  simp [existsLocally, quoteMatches, not_and]

lemma noDupPairs_append_singleton (l : List Quote) (q : Quote)
    (hl : noDupPairs l) (hq : existsLocally l q = false) :
    noDupPairs (l ++ [q]) := by
  rw [noDupPairs, List.pairwise_append]
  refine ⟨hl, List.pairwise_singleton _ _, ?_⟩
  intro a ha b hb
  rw [List.mem_singleton] at hb
  rw [hb]
  exact (existsLocally_eq_false_iff l q).mp hq a ha

lemma noDupPairs_foldl_mergeStep (r : List Quote) :
    ∀ (l : List Quote) (b : Bool), noDupPairs l →
      noDupPairs ((List.foldl mergeStep (l, b) r).1) := by
  induction r with
  | nil => intro l b hl; exact hl
  | cons q rs ih =>
    intro l b hl
    by_cases h : existsLocally l q
    · rw [List.foldl, mergeStep]
      simp only [h, if_pos]
      exact ih l b hl
    · rw [List.foldl, mergeStep]
      simp only [h, if_neg, Bool.false_eq_true, not_false_iff]
      exact ih (l ++ [q]) true
        (noDupPairs_append_singleton l q hl (by simpa using h))

lemma quoteMatches_refl (q : Quote) : quoteMatches q q = true := by
  simp [quoteMatches]

lemma existsLocally_of_mem {l : List Quote} {q : Quote} (h : q ∈ l) :
    existsLocally l q = true := by
  rw [existsLocally, List.any_eq_true]
  exact ⟨q, h, quoteMatches_refl q⟩

lemma existsLocally_append_left {l : List Quote} (t : List Quote) {q : Quote}
    (h : existsLocally l q = true) : existsLocally (l ++ t) q = true := by
  rw [existsLocally, List.any_eq_true] at h ⊢
  obtain ⟨a, ha, hm⟩ := h
  exact ⟨a, List.mem_append_left t ha, hm⟩

/-- Every remote record has a matching record in the merged list. -/
lemma existsLocally_foldl_mergeStep (r : List Quote) :
    ∀ (l : List Quote) (b : Bool) (q : Quote), q ∈ r →
      existsLocally ((List.foldl mergeStep (l, b) r).1) q = true := by
  induction r with
  | nil => intro l b q hq; cases hq
  | cons p rs ih =>
    intro l b q hq
    by_cases hp : existsLocally l p
    · rw [List.foldl, mergeStep]
      simp only [hp, if_pos]
      rcases List.mem_cons.mp hq with hqp | hqrs
      · subst hqp
        rw [foldl_mergeStep_fst]
        exact existsLocally_append_left _ hp
      · exact ih l b q hqrs
    · rw [List.foldl, mergeStep]
      simp only [hp, if_neg, Bool.false_eq_true, not_false_iff]
      rcases List.mem_cons.mp hq with hqp | hqrs
      · subst hqp
        rw [foldl_mergeStep_fst]
        exact existsLocally_append_left _
          (existsLocally_of_mem (List.mem_append_right l (List.mem_singleton_self q)))
      · exact ih (l ++ [p]) true q hqrs

/-- If every remote record already matches a local one, the merge loop is a
no-op and leaves `changesDetected` untouched. -/
lemma foldl_mergeStep_noop (r : List Quote) :
    ∀ (l : List Quote) (b : Bool),
      (∀ q ∈ r, existsLocally l q = true) →
        List.foldl mergeStep (l, b) r = (l, b) := by
  induction r with
  | nil => intro l b _; rfl
  | cons q rs ih =>
    intro l b h
    rw [List.foldl, mergeStep]
    simp only [h q (List.mem_cons_self q rs), if_pos]
    exact ih l b fun p hp => h p (List.mem_cons_of_mem q hp)

lemma mergeServerQuotes_idem (l r : List Quote) :
    mergeServerQuotes (mergeServerQuotes l r) r = mergeServerQuotes l r := by
  have h : ∀ q ∈ r, existsLocally (mergeServerQuotes l r) q = true := fun q hq =>
    existsLocally_foldl_mergeStep r l false q hq
  conv_lhs => rw [mergeServerQuotes, mergeServerQuotesD,
    foldl_mergeStep_noop r (mergeServerQuotes l r) false h]

/-- JSON values, as produced by `JSON.parse`. Objects are field lists with
distinct keys (what `JSON.parse` returns — later duplicate keys overwrite
earlier ones before user code ever sees the object). -/
inductive Json where
  | null
  | bool (b : Bool)
  | num (n : Int)
  | str (s : String)
  | arr (items : List Json)
  | obj (fields : List (String × Json))

/-- Field lookup on a parsed JSON object, as in `q.text` / `'text' in q`. -/
def lookupField : List (String × Json) → String → Option Json
  | [], _ => none
  | (k, v) :: fs, key => if k = key then some v else lookupField fs key

/-- The per-element shape check of `importFromJsonFile` (script.js:546):
`typeof q === 'object' && q !== null && 'text' in q && 'category' in q`.
Only parsed objects carry the two keys; `null`, scalars and arrays fail. -/
def hasTextAndCategory : Json → Bool
  | .obj fields => (lookupField fields "text").isSome && (lookupField fields "category").isSome
  | _ => false

/-- The whole-input validation of `importFromJsonFile` (script.js:546):
`Array.isArray(importedQuotes) && importedQuotes.every(...)`. -/
def importShapeValid : Json → Bool
  | .arr items => items.all hasTextAndCategory
  | _ => false

/-- Reads one imported object back into a `Quote`. Model restriction: the
code pushes the parsed object verbatim, so objects whose `text`/`category`
values are not strings would be stored as-is; the model covers the
string-valued shape, which is what the application itself and
`exportToJsonFile` ever produce. -/
def decodeQuote : Json → Option Quote
  | .obj fields =>
    match lookupField fields "text", lookupField fields "category" with
    | some (.str t), some (.str c) => some ⟨t, c⟩
    | _, _ => none
  | _ => none

def decodeQuoteList : List Json → Option (List Quote)
  | [] => some []
  | j :: js =>
    match decodeQuote j, decodeQuoteList js with
    | some q, some qs => some (q :: qs)
    | _, _ => none

def decodeQuoteArray : Json → Option (List Quote)
  | .arr items => decodeQuoteList items
  | _ => none

/-- `JSON.stringify` of one quote, as a JSON value (keys in insertion
order: `text`, then `category`). -/
def quoteToJson (q : Quote) : Json :=
  .obj [("text", .str q.text), ("category", .str q.category)]

/-- `exportToJsonFile` (script.js:510-528): serializes the current quotes
array — `JSON.stringify(quotes, null, 2)` — and offers it for download.
The model returns the JSON value the produced file contains; the blob/URL
plumbing is presentational. -/
def exportToJsonFile (quotes : List Quote) : Json :=
  .arr (quotes.map quoteToJson)

/-- The `importedQuotes.forEach` loop of `importFromJsonFile`
(script.js:547-554): push each imported record whose `(text, category)`
pair is not already in the (growing) local list. -/
def importMergeLoop (quotes importedQuotes : List Quote) : List Quote :=
  importedQuotes.foldl
    (fun acc newQuote => if existsLocally acc newQuote then acc else acc ++ [newQuote])
    quotes

/-- A user-facing notification, as set by `displayNotification`
(script.js:163-175): the message text and the type class
(`'success'`, `'error'`, `'info'`). -/
structure Notification where
  message : String
  kind : String
  deriving DecidableEq, Repr

/-- The application state touched by the data layer of the second script:
the in-memory `quotes` array, the `localStorage` entry under the `'quotes'`
key (`none` when absent), the simulated server's `serverQuotes`, the two
form inputs, and the last notification shown. -/
structure AppState where
  quotes : List Quote
  storage : Option (List Quote)
  server : List Quote
  textInput : String
  categoryInput : String
  notification : Option Notification
  deriving DecidableEq, Repr

/-- JS `String.prototype.trim`: drop whitespace from both ends. -/
def jsTrim (s : String) : String :=
  ⟨((s.data.dropWhile Char.isWhitespace).reverse.dropWhile Char.isWhitespace).reverse⟩

/-- `displayNotification(message, type)` (script.js:163-175). -/
def displayNotification (message kind : String) (s : AppState) : AppState :=
  { s with notification := some ⟨message, kind⟩ }

/-- `saveQuotes` (script.js:210-217): `localStorage.setItem('quotes',
JSON.stringify(quotes))`, success path. -/
def saveQuotes (s : AppState) : AppState :=
  { s with storage := some s.quotes }

/-- `fetchQuotesFromServer` (script.js:288-294): returns a deep copy of the
simulated server's list. -/
def fetchQuotesFromServer (s : AppState) : List Quote :=
  s.server

/-- `pushQuotesToServer(clientQuotes)` (script.js:303-309): overwrites the
simulated server data with the client's list. -/
def pushQuotesToServer (clientQuotes : List Quote) (s : AppState) : AppState :=
  { s with server := clientQuotes }

/-- `syncQuotes` (script.js:317-356), success path: notify, fetch, merge
the server's unique quotes into the local list, push the merged list back,
and — only when `changesDetected` — save to local storage; finally notify
success. -/
def syncQuotes (s : AppState) : AppState :=
  let s0 := displayNotification "Syncing data..." "info" s
  let remoteQuotes := fetchQuotesFromServer s0
  let merged := mergeServerQuotesD s0.quotes remoteQuotes
  let s1 := pushQuotesToServer merged.1 { s0 with quotes := merged.1 }
  if merged.2 then
    displayNotification "Data synced successfully! New quotes added from server." "success"
      (saveQuotes s1)
  else
    displayNotification "Data synced. No new quotes from server." "success" s1

/-- `createAddQuoteForm` (script.js:479-503): validate the trimmed inputs,
push the new quote, save, clear the inputs, notify, then sync. -/
def createAddQuoteForm (s : AppState) : AppState :=
  let text := jsTrim s.textInput
  let category := jsTrim s.categoryInput
  if text = "" ∨ category = "" then
    displayNotification "Both quote text and category are required!" "error" s
  else
    let s1 := { s with quotes := s.quotes ++ [⟨text, category⟩] }
    let s2 := saveQuotes s1
    let s3 := { s2 with textInput := "", categoryInput := "" }
    let s4 := displayNotification "Quote added locally. Syncing..." "info" s3
    syncQuotes s4

/-- The `onload` handler of `importFromJsonFile` (script.js:542-568).
`parsed` is the result of `JSON.parse(e.target.result)`: `none` models a
parse exception (empty file, malformed text), which the `catch` arm turns
into an error notification. A parsed value of the wrong shape takes the
`else` arm; a well-shaped array is merged with the duplicate-pair check,
saved, and followed by a sync. -/
def importFromJsonFile (s : AppState) (parsed : Option Json) : AppState :=
  match parsed with
  | none =>
    displayNotification "Failed to import quotes. Please ensure the file is a valid JSON format."
      "error" s
  | some j =>
    if importShapeValid j then
      match decodeQuoteArray j with
      | some importedQuotes =>
        let s1 := { s with quotes := importMergeLoop s.quotes importedQuotes }
        let s2 := saveQuotes s1
        let s3 := displayNotification "Quotes imported successfully! Syncing..." "success" s2
        syncQuotes s3
      | none => s
    else
      displayNotification "Invalid JSON file format. Expected array of objects with text and category."
        "error" s

/-- `addQuote` of the first script iteration (script.js:90-117) and of the
unnamed script (part_000:41-54), whose guards are equivalent: its state has
no storage or server. `alertMessage` is the alert raised by this call
(`none` on the success path of script.js's `addQuote`). -/
structure LegacyState where
  quotes : List Quote
  textInput : String
  categoryInput : String
  alertMessage : Option String
  deriving DecidableEq, Repr

def addQuote (s : LegacyState) : LegacyState :=
  let text := jsTrim s.textInput
  let category := jsTrim s.categoryInput
  if text = "" ∨ category = "" then
    { s with alertMessage := some "Please enter both a quote and a category." }
  else
    { s with
      quotes := s.quotes ++ [⟨text, category⟩]
      textInput := ""
      categoryInput := ""
      alertMessage := none }

instance (l : List Quote) : Decidable (noDupPairs l) := by
  unfold noDupPairs
  infer_instance

lemma syncQuotes_quotes (s : AppState) :
    (syncQuotes s).quotes = mergeServerQuotes s.quotes s.server := by
  rw [syncQuotes]
  by_cases h : (mergeServerQuotesD s.quotes s.server).2 <;>
    simp [h, displayNotification, saveQuotes, pushQuotesToServer, fetchQuotesFromServer,
      mergeServerQuotes]

lemma syncQuotes_server (s : AppState) :
    (syncQuotes s).server = mergeServerQuotes s.quotes s.server := by
  rw [syncQuotes]
  by_cases h : (mergeServerQuotesD s.quotes s.server).2 <;>
    simp [h, displayNotification, saveQuotes, pushQuotesToServer, fetchQuotesFromServer,
      mergeServerQuotes]

/-- The import loop computes the same list as the sync merge loop: the two
source loops (script.js:324-335 and script.js:547-554) differ only in the
`changesDetected` bookkeeping. -/
lemma importMergeLoop_eq_foldl (imported : List Quote) :
    ∀ (l : List Quote) (b : Bool),
      importMergeLoop l imported = (List.foldl mergeStep (l, b) imported).1 := by
  induction imported with
  | nil => intro l b; rfl
  | cons q rs ih =>
    intro l b
    by_cases h : existsLocally l q
    · rw [importMergeLoop, List.foldl, List.foldl, mergeStep]
      simp only [h, if_pos]
      exact ih l b
    · rw [importMergeLoop, List.foldl, List.foldl, mergeStep]
      simp only [h, if_neg, Bool.false_eq_true, not_false_iff]
      exact ih (l ++ [q]) true

lemma importMergeLoop_eq_merge (l imported : List Quote) :
    importMergeLoop l imported = mergeServerQuotes l imported :=
  importMergeLoop_eq_foldl imported l false

/-- Sample quotes for concrete witnesses and counterexamples. -/
def qA : Quote := ⟨"alpha", "General"⟩

def qB : Quote := ⟨"beta", "General"⟩

/-- C1: for every local and remote quote list, the merge step of
`syncQuotes` appends to the local list exactly the remote records that
have no `(text, category)` match in the local list at the moment they are
processed (in remote order — `newFromServer` is the specification's own
phrasing of that selection), and leaves every original local record in
place, unchanged. -/
theorem syncQuotes_merge_appends_exactly (l r : List Quote) :
    mergeServerQuotes l r = l ++ newFromServer l r :=
  mergeServerQuotes_eq_append l r

/-- C2: if the local list has no two records with an identical
`(text, category)` pair, neither does the result of the merge step of
`syncQuotes`, for every remote list — including remote lists that contain
duplicate pairs themselves. -/
theorem syncQuotes_merge_preserves_noDupPairs (l r : List Quote) (h : noDupPairs l) :
    noDupPairs (mergeServerQuotes l r) :=
  noDupPairs_foldl_mergeStep r l false h

theorem syncQuotes_merge_preserves_noDupPairs_witness :
    noDupPairs [qA] ∧ noDupPairs (mergeServerQuotes [qA] [qA, qB, qB]) :=
  ⟨by decide, syncQuotes_merge_preserves_noDupPairs [qA] [qA, qB, qB] (by decide)⟩

/-- C3: the merge step of `syncQuotes` is idempotent — merging the same
remote list into an already-merged local list changes nothing. -/
theorem syncQuotes_merge_idempotent (l r : List Quote) :
    mergeServerQuotes (mergeServerQuotes l r) r = mergeServerQuotes l r :=
  mergeServerQuotes_idem l r

lemma mergeServerQuotesD_snd_false {l r : List Quote}
    (h : (mergeServerQuotesD l r).2 = false) : mergeServerQuotes l r = l :=
  foldl_mergeStep_snd_false r l h

/-- A reachable pre-sync state whose persisted storage disagrees with the
in-memory list (e.g. after the `catch` arm of `loadQuotes` fell back to the
defaults without saving): one local quote, empty stored list, empty
server. -/
def staleStorageState : AppState := ⟨[qA], some [], [], "", "", none⟩

/-- C4 counterexample: `syncQuotes` saves only when `changesDetected`
(script.js:343-350). From `staleStorageState` the merge detects no changes,
storage is not rewritten, and after the (successful) run it differs from
the merged local list — so storage does not always equal the merged list. -/
theorem syncQuotes_skips_save_when_no_changes :
    (syncQuotes staleStorageState).storage ≠ some ((syncQuotes staleStorageState).quotes) := by
  decide

/-- C4 amended: after a successful `syncQuotes` run, *provided the
persisted storage equalled the local list before the run* (true on every
normal path, since every prior mutation saved), storage equals the merged
local list — also when the merge detected no changes, in which case the
save is skipped but storage already held the (unchanged) list. -/
theorem syncQuotes_storage_agrees (s : AppState) (h : s.storage = some s.quotes) :
    (syncQuotes s).storage = some ((syncQuotes s).quotes) := by
  rw [syncQuotes]
  by_cases hc : (mergeServerQuotesD s.quotes s.server).2
  · simp [hc, displayNotification, saveQuotes, pushQuotesToServer, fetchQuotesFromServer]
  · simp [hc, displayNotification, saveQuotes, pushQuotesToServer, fetchQuotesFromServer]
    rw [h]
    have hm := mergeServerQuotesD_snd_false (l := s.quotes) (r := s.server) (by simpa using hc)
    rw [mergeServerQuotes] at hm
    rw [hm]

/-- In-sync pre-state for the C4 witness: storage matches the list and the
server offers one new quote. -/
def syncedStorageState : AppState := ⟨[qA], some [qA], [qB], "", "", none⟩

theorem syncQuotes_storage_agrees_witness :
    syncedStorageState.storage = some syncedStorageState.quotes ∧
      (syncQuotes syncedStorageState).storage = some ((syncQuotes syncedStorageState).quotes) :=
  ⟨by decide, syncQuotes_storage_agrees syncedStorageState (by decide)⟩

/-- Pre-sync state for the C7 counterexample: the client holds one quote
the server lacks, so the sync's write changes what the endpoint serves. -/
def pushWitnessState : AppState := ⟨[qA], some [qA], [], "", "", none⟩

/-- C7 counterexample: `pushQuotesToServer` overwrites the simulated
server's data with the client's full list (script.js:303-309), and the
write is durable — a fetch performed after the sync returns a different
list from the one fetched before, refuting "the endpoint does not durably
persist writes". -/
theorem server_write_is_durable :
    fetchQuotesFromServer (syncQuotes pushWitnessState) ≠ fetchQuotesFromServer pushWitnessState := by
  decide

/-- C7 amended: the write performed during sync sends the client's entire
merged quote list (not a single item) to the simulated endpoint, which
persists it: a subsequent fetch returns exactly the merged client list. -/
theorem syncQuotes_push_persists_merged_list (s : AppState) :
    fetchQuotesFromServer (syncQuotes s) = (syncQuotes s).quotes := by
  rw [fetchQuotesFromServer, syncQuotes_server, syncQuotes_quotes]

/-- State for the C8 counterexample/witness: the one local quote is also
what the import file contains, the inputs hold the same pair. -/
def dupImportState : AppState := ⟨[qA], some [qA], [], " alpha ", "General", none⟩

/-- C8 counterexample: the import loop of `importFromJsonFile` checks
`(text, category)` just like the merge (script.js:547-554) — importing a
file containing an already-present record does *not* append it, refuting
"importing from a JSON file appends records even when a record with the
same pair is already present". -/
theorem importFromJsonFile_enforces_uniqueness :
    (importFromJsonFile dupImportState (some (Json.arr [quoteToJson qA]))).quotes
      ≠ dupImportState.quotes ++ [qA] := by
  decide

/-- C8 amended: only the user-input add path inserts without a uniqueness
check — `createAddQuoteForm` pushes the trimmed pair unconditionally, for
every state, duplicate or not — while the file-import loop, like the
merge, skips any record whose `(text, category)` pair already has a match
in the (growing) local list. -/
theorem add_appends_import_dedups (s : AppState) (l rest : List Quote) (q : Quote)
    (ht : jsTrim s.textInput ≠ "") (hc : jsTrim s.categoryInput ≠ "")
    (hq : existsLocally l q = true) :
    (createAddQuoteForm s).quotes
        = mergeServerQuotes (s.quotes ++ [⟨jsTrim s.textInput, jsTrim s.categoryInput⟩]) s.server ∧
      importMergeLoop l (q :: rest) = importMergeLoop l rest := by
  constructor
  · have hcond : ¬ (jsTrim s.textInput = "" ∨ jsTrim s.categoryInput = "") := by
      rintro (h | h)
      · exact ht h
      · exact hc h
    rw [createAddQuoteForm]
    rw [if_neg hcond]
    rw [syncQuotes_quotes]
    simp [displayNotification, saveQuotes]
  · rw [importMergeLoop, importMergeLoop, List.foldl]
    simp [hq]

theorem add_appends_import_dedups_witness :
    jsTrim dupImportState.textInput ≠ "" ∧ jsTrim dupImportState.categoryInput ≠ "" ∧
      existsLocally [qA] qA = true ∧
      ((createAddQuoteForm dupImportState).quotes
          = mergeServerQuotes
              (dupImportState.quotes ++ [⟨jsTrim dupImportState.textInput,
                jsTrim dupImportState.categoryInput⟩])
              dupImportState.server ∧
        importMergeLoop [qA] (qA :: []) = importMergeLoop [qA] []) :=
  ⟨by decide, by decide, by decide,
    add_appends_import_dedups dupImportState [qA] [] qA (by decide) (by decide) (by decide)⟩

lemma prefix_mergeServerQuotes (l r : List Quote) : List.IsPrefix l (mergeServerQuotes l r) :=
  ⟨newFromServer l r, (mergeServerQuotes_eq_append l r).symm⟩

lemma prefix_createAddQuoteForm (s : AppState) :
    List.IsPrefix s.quotes (createAddQuoteForm s).quotes := by
  rw [createAddQuoteForm]
  by_cases hcond : jsTrim s.textInput = "" ∨ jsTrim s.categoryInput = ""
  · rw [if_pos hcond]
    exact List.prefix_refl _
  · rw [if_neg hcond, syncQuotes_quotes]
    simp only [displayNotification, saveQuotes]
    exact (List.prefix_append s.quotes _).trans (prefix_mergeServerQuotes _ _)

lemma prefix_importFromJsonFile (s : AppState) (parsed : Option Json) :
    List.IsPrefix s.quotes (importFromJsonFile s parsed).quotes := by
  cases parsed with
  | none => exact List.prefix_refl _
  | some j =>
    rw [importFromJsonFile]
    by_cases hv : importShapeValid j
    · rw [if_pos hv]
      cases hdec : decodeQuoteArray j with
      | none => exact List.prefix_refl _
      | some imported =>
        simp only [syncQuotes_quotes, displayNotification, saveQuotes]
        rw [importMergeLoop_eq_merge]
        exact (prefix_mergeServerQuotes _ _).trans (prefix_mergeServerQuotes _ _)
    · rw [if_neg hv]
      exact List.prefix_refl _

/-- C9: the quote list is append-only. Every mutating operation of the
model — a sync merge, a user-input add (`createAddQuoteForm`, and the
earlier scripts' `addQuote`), a file import — leaves the pre-operation
list as a verbatim prefix of the post-operation list: no record is
deleted, edited or reordered. -/
theorem quote_list_append_only (s : AppState) (ls : LegacyState) (parsed : Option Json) :
    List.IsPrefix s.quotes (syncQuotes s).quotes ∧
      List.IsPrefix s.quotes (createAddQuoteForm s).quotes ∧
      List.IsPrefix s.quotes (importFromJsonFile s parsed).quotes ∧
      List.IsPrefix ls.quotes (addQuote ls).quotes := by
  refine ⟨?_, prefix_createAddQuoteForm s, prefix_importFromJsonFile s parsed, ?_⟩
  · rw [syncQuotes_quotes]
    exact prefix_mergeServerQuotes _ _
  · rw [addQuote]
    by_cases hcond : jsTrim ls.textInput = "" ∨ jsTrim ls.categoryInput = ""
    · rw [if_pos hcond]
    · rw [if_neg hcond]
      exact List.prefix_append _ _

/-- C10: when the trimmed quote text or the trimmed category is empty, the
add-quote handlers take the validation branch: `createAddQuoteForm`
(script.js:483-486) leaves the list, the persisted storage and both input
fields untouched and shows the required-fields error notification, and the
earlier scripts' `addQuote` (script.js:96-101, part_000:45-53) likewise
leaves its list and fields untouched and raises the alert. -/
theorem addQuote_rejects_blank_input (s : AppState) (ls : LegacyState)
    (h : jsTrim s.textInput = "" ∨ jsTrim s.categoryInput = "")
    (hl : jsTrim ls.textInput = "" ∨ jsTrim ls.categoryInput = "") :
    (createAddQuoteForm s).quotes = s.quotes ∧
      (createAddQuoteForm s).storage = s.storage ∧
      (createAddQuoteForm s).textInput = s.textInput ∧
      (createAddQuoteForm s).categoryInput = s.categoryInput ∧
      (createAddQuoteForm s).notification
        = some ⟨"Both quote text and category are required!", "error"⟩ ∧
      (addQuote ls).quotes = ls.quotes ∧
      (addQuote ls).textInput = ls.textInput ∧
      (addQuote ls).categoryInput = ls.categoryInput ∧
      (addQuote ls).alertMessage = some "Please enter both a quote and a category." := by
  simp only [createAddQuoteForm, addQuote, displayNotification]
  rw [if_pos h, if_pos hl]
  simp

/-- Whitespace-only text input, for the C10 witness. -/
def blankInputState : AppState := ⟨[qA], some [qA], [], "   ", "General", none⟩

/-- Whitespace-only category input, for the C10 witness. -/
def blankLegacyState : LegacyState := ⟨[qA], "a quote", " ", none⟩

theorem addQuote_rejects_blank_input_witness :
    jsTrim blankInputState.textInput = "" ∧ jsTrim blankLegacyState.categoryInput = "" ∧
      ((createAddQuoteForm blankInputState).quotes = blankInputState.quotes ∧
        (createAddQuoteForm blankInputState).storage = blankInputState.storage ∧
        (createAddQuoteForm blankInputState).textInput = blankInputState.textInput ∧
        (createAddQuoteForm blankInputState).categoryInput = blankInputState.categoryInput ∧
        (createAddQuoteForm blankInputState).notification
          = some ⟨"Both quote text and category are required!", "error"⟩ ∧
        (addQuote blankLegacyState).quotes = blankLegacyState.quotes ∧
        (addQuote blankLegacyState).textInput = blankLegacyState.textInput ∧
        (addQuote blankLegacyState).categoryInput = blankLegacyState.categoryInput ∧
        (addQuote blankLegacyState).alertMessage
          = some "Please enter both a quote and a category.") :=
  ⟨by decide, by decide,
    addQuote_rejects_blank_input blankInputState blankLegacyState
      (Or.inl (by decide)) (Or.inr (by decide))⟩

/-- C6: an import whose content fails to parse (`parsed = none`: empty or
malformed file) or parses to anything other than an array of objects
carrying `text` and `category` fields leaves the quote list and the
persisted storage untouched and reports an error notification; the model
is total, so nothing escapes as an exception (the code reaches this
outcome through its `catch` arm and its validation `else` arm,
script.js:561-567). -/
theorem importFromJsonFile_rejects_invalid (s : AppState) (parsed : Option Json)
    (h : parsed = none ∨ ∃ j, parsed = some j ∧ importShapeValid j = false) :
    (importFromJsonFile s parsed).quotes = s.quotes ∧
      (importFromJsonFile s parsed).storage = s.storage ∧
      ∃ m, (importFromJsonFile s parsed).notification = some ⟨m, "error"⟩ := by
  rcases h with h | ⟨j, hj, hv⟩
  · subst h
    exact ⟨rfl, rfl, _, rfl⟩
  · subst hj
    rw [importFromJsonFile, if_neg (by simp [hv])]
    exact ⟨rfl, rfl, _, rfl⟩

/-- A quiescent state for the C6 witness. -/
def plainState : AppState := ⟨[qA], some [qA], [], "", "", none⟩

theorem importFromJsonFile_rejects_invalid_witness :
    ((importFromJsonFile plainState none).quotes = plainState.quotes ∧
      (importFromJsonFile plainState none).storage = plainState.storage ∧
      ∃ m, (importFromJsonFile plainState none).notification = some ⟨m, "error"⟩) ∧
    ((importFromJsonFile plainState (some (Json.str "oops"))).quotes = plainState.quotes ∧
      (importFromJsonFile plainState (some (Json.str "oops"))).storage = plainState.storage ∧
      ∃ m, (importFromJsonFile plainState (some (Json.str "oops"))).notification
        = some ⟨m, "error"⟩) :=
  ⟨importFromJsonFile_rejects_invalid plainState none (Or.inl rfl),
    importFromJsonFile_rejects_invalid plainState (some (Json.str "oops"))
      (Or.inr ⟨Json.str "oops", rfl, rfl⟩)⟩

lemma decodeQuote_quoteToJson (q : Quote) : decodeQuote (quoteToJson q) = some q := rfl

lemma hasTextAndCategory_quoteToJson (q : Quote) : hasTextAndCategory (quoteToJson q) = true := rfl

lemma importShapeValid_export (l : List Quote) :
    importShapeValid (exportToJsonFile l) = true := by
  simp [importShapeValid, exportToJsonFile, List.all_eq_true, hasTextAndCategory_quoteToJson]

lemma decodeQuoteList_map (l : List Quote) :
    decodeQuoteList (l.map quoteToJson) = some l := by
  induction l with
  | nil => rfl
  | cons q qs ih => simp [decodeQuoteList, decodeQuote_quoteToJson, ih]

lemma decodeQuoteArray_export (l : List Quote) :
    decodeQuoteArray (exportToJsonFile l) = some l := by
  rw [exportToJsonFile, decodeQuoteArray]
  exact decodeQuoteList_map l

lemma importMergeLoop_self (l : List Quote) : importMergeLoop l l = l := by
  rw [importMergeLoop_eq_merge, mergeServerQuotes, mergeServerQuotesD,
    foldl_mergeStep_noop l l false fun q hq => existsLocally_of_mem hq]

/-- C5: export-then-import round-trips the list unchanged. The file
`exportToJsonFile` produces passes the import validation, decodes to
exactly the original records — same number, order and content — and
merging them back appends nothing. Consequently a full
`importFromJsonFile` run on the exported file leaves the quote list
exactly as the sync it triggers would have (the import itself contributes
no change; `importFromJsonFile` always ends with a `syncQuotes` call,
which is independent of the imported data). -/
theorem export_import_roundtrip (l : List Quote) (s : AppState) :
    importShapeValid (exportToJsonFile l) = true ∧
      decodeQuoteArray (exportToJsonFile l) = some l ∧
      importMergeLoop l l = l ∧
      (importFromJsonFile s (some (exportToJsonFile s.quotes))).quotes
        = (syncQuotes s).quotes := by
  refine ⟨importShapeValid_export l, decodeQuoteArray_export l, importMergeLoop_self l, ?_⟩
  rw [importFromJsonFile, if_pos (importShapeValid_export s.quotes),
    decodeQuoteArray_export s.quotes]
  simp only [importMergeLoop_self, displayNotification, saveQuotes, syncQuotes_quotes]
